import Mathlib

/-!
Verification development for a hyperparameter-tuning helper library.

The repository consists of two Python modules:
  - src/train_utils.py : data splitting (retrieve_data_w_features), search-space
    sampling (build_search_space), the objective (optimize_hyperparams_hgb) and
    the Optuna driver (run_bayesian_optimization);
  - src/download_data.py : read_rdata.

We give a shallow embedding of these functions.  External collaborators
(pandas, optuna, scikit-learn, pyreadr) are consumed as opaque capabilities;
they are modelled by their documented contracts: a pandas DataFrame is a column
list plus rows, an Optuna trial is a record of sampler choice functions whose
numeric samplers return values inside the requested bounds, the Optuna study is
a queue plus a trial log minimised sequentially, and the fitted model is an
abstract loss function of the full model configuration and the seed in use.
Numeric values are rationals; losses are rationals.
-/

namespace Workshop

/-- Scalar cell values appearing in a table or a hyperparameter assignment:
booleans, integers, numerics (modelled as rationals) and strings. -/
inductive Cell where
  | bool (b : Bool)
  | int (n : Int)
  | rat (q : ℚ)
  | str (s : String)
  deriving DecidableEq, Repr

/-- Python-level failures this library can surface.
`attributeError a` models an AttributeError whose message names the missing
attribute `a` (raised by the eval-based dispatch in build_search_space when the
trial object has no `suggest_<kind>` method).
`keyError cols` models the pandas KeyError listing the column labels that were
not found in the axis; it realises the ColumnNotFoundError of the spec. -/
inductive PyError where
  | attributeError (attr : String)
  | keyError (missing : List String)
  deriving DecidableEq, Repr

/-- A pandas DataFrame: an ordered list of column names and an ordered list of
rows, each row giving the cell held at each column name. -/
structure DataFrame where
  cols : List String
  rows : List (String → Cell)

/-- Truth of the pandas comparison `cell == 1` used by the row filter
`df[df[split] == 1]`: True compares equal to 1, as do the numbers 1. -/
def cellEqOne : Cell → Bool
  | .bool b => b
  | .int n => n == 1
  | .rat q => q == 1
  | .str _ => false

/-- Embedding of `retrieve_data_w_features(df, features_to_drop, split)` from
src/train_utils.py.  The code filters `df[df[split] == 1]` (a KeyError if the
split column is absent), then drops `features_to_drop + ["PremTot"]` with
`errors="raise"` (a KeyError listing every requested label absent from the
columns), and finally reads the target column as y.  Row filtering keeps the
original row order; dropping removes exactly the requested column labels. -/
def retrieve_data_w_features (df : DataFrame) (features_to_drop : List String)
    (split : String) : Except PyError (DataFrame × List Cell) :=
  if split ∈ df.cols then
    if (features_to_drop ++ ["PremTot"]).filter (fun c => decide (c ∉ df.cols)) = [] then
      Except.ok
        (⟨df.cols.filter (fun c => decide (c ∉ features_to_drop ++ ["PremTot"])),
          df.rows.filter (fun r => cellEqOne (r split))⟩,
         (df.rows.filter (fun r => cellEqOne (r split))).map (fun r => r "PremTot"))
    else
      Except.error
        (PyError.keyError
          ((features_to_drop ++ ["PremTot"]).filter (fun c => decide (c ∉ df.cols))))
  else
    Except.error (PyError.keyError [split])

/-- A sampling descriptor from the search-space configuration: a kind tag and
either an enumerated choices list (categorical) or numeric (min, max) bounds. -/
structure SamplingParams where
  sampling_type : String
  choices : List Cell := []
  min : ℚ := 0
  max : ℚ := 0
  deriving DecidableEq, Repr

/-- An Optuna trial, modelled by its internal choice sources: which index the
categorical sampler picks for a given hyperparameter name, and which raw value
each numeric sampler draws.  The suggest functions below expose the documented
Optuna contract (values come from the choices list, or lie inside the
requested bounds). -/
structure Trial where
  catChoice : String → Nat
  intChoice : String → Int
  floatChoice : String → ℚ

/-- Optuna contract of `trial.suggest_categorical(name, choices)`: one element
of `choices`, selected by the trial internals. -/
def Trial.suggest_categorical (t : Trial) (name : String) (choices : List Cell) : Cell :=
  choices.getD (t.catChoice name % choices.length) (Cell.str "")

/-- Optuna contract of `trial.suggest_int(name, low, high)`: a drawn value
clamped into the closed interval from low to high. -/
def Trial.suggest_int (t : Trial) (name : String) (low high : ℚ) : ℚ :=
  max low (min high ((t.intChoice name : ℚ)))

/-- Optuna contract of `trial.suggest_float(name, low, high)`: a drawn value
clamped into the closed interval from low to high. -/
def Trial.suggest_float (t : Trial) (name : String) (low high : ℚ) : ℚ :=
  max low (min high (t.floatChoice name))

/-- Outcome of one run of build_search_space over a trial: the suggestions the
trial recorded, in order, and the exception raised, if any.  When `error` is
`none`, `sampled` is exactly the returned hyperparams dictionary; when an
exception is raised the dictionary is discarded but the suggestions already
made remain recorded on the trial. -/
structure BuildResult where
  sampled : List (String × Cell)
  error : Option PyError
  deriving DecidableEq, Repr

/-- Embedding of `build_search_space(trial, hyperparams_search_space)` from
src/train_utils.py.  The code iterates the search-space mapping in insertion
order; a categorical descriptor is dispatched to suggest_categorical, every
other kind k is dispatched by evaluating the text `trial.suggest_k(...)`, which
succeeds for the numeric methods the trial object has (suggest_int,
suggest_float) and raises AttributeError for a missing method `suggest_k`,
ending the loop at that entry. -/
def build_search_space (trial : Trial) :
    List (String × SamplingParams) → BuildResult
  | [] => ⟨[], none⟩
  | (name, sp) :: rest =>
    if sp.sampling_type = "categorical" then
      let r := build_search_space trial rest
      ⟨(name, trial.suggest_categorical name sp.choices) :: r.sampled, r.error⟩
    else if sp.sampling_type = "int" then
      let r := build_search_space trial rest
      ⟨(name, Cell.rat (trial.suggest_int name sp.min sp.max)) :: r.sampled, r.error⟩
    else if sp.sampling_type = "float" then
      let r := build_search_space trial rest
      ⟨(name, Cell.rat (trial.suggest_float name sp.min sp.max)) :: r.sampled, r.error⟩
    else
      ⟨[], some (PyError.attributeError ("suggest_" ++ sp.sampling_type))⟩

/-- The sampling kinds for which the trial object has a suggest method in this
model: categorical plus the numeric kinds int and float. -/
def recognizedKind (s : String) : Prop :=
  s = "categorical" ∨ s = "int" ∨ s = "float"

instance (s : String) : Decidable (recognizedKind s) := by
  unfold recognizedKind; infer_instance

/-- The data passed to the model by the objective: training features and
target, validation features and target. -/
structure SplitData where
  df_train : DataFrame
  y_train : List Cell
  df_val : DataFrame
  y_val : List Cell

/-- The full configuration an HistGradientBoostingRegressor is constructed
with in `optimize_hyperparams_hgb`: categorical feature names, the early
stopping flag, the random_state argument (none means the global numpy
randomness is consumed), and the sampled hyperparameters. -/
structure HGBConfig where
  categorical_features : List String
  early_stopping : Bool
  random_state : Option Nat
  hyperparams : List (String × Cell)

/-- The seed scikit-learn actually uses: the random_state argument when one is
given, otherwise whatever the ambient global random state supplies. -/
def effectiveSeed (cfg : HGBConfig) (globalSeed : Nat) : Nat :=
  match cfg.random_state with
  | some s => s
  | none => globalSeed

/-- Embedding of `optimize_hyperparams_hgb(trial, search_params, df_train,
y_train, df_val, y_val, categorical_features)` from src/train_utils.py.
`modelLoss` abstracts the external fit / predict / root_mean_squared_error
pipeline: scikit-learn documents that, given the model configuration and the
seed in use, this pipeline is a deterministic function of the data, so it is
modelled as exactly such a function.  `globalSeed` is the ambient random state
a call would consume if the model were built without random_state.  The code
samples the hyperparameters with build_search_space (propagating any
exception), then builds the model with early_stopping=True and
random_state=42 and returns the validation loss. -/
def optimize_hyperparams_hgb
    (modelLoss : HGBConfig → Nat → SplitData → ℚ) (globalSeed : Nat)
    (trial : Trial) (search_params : List (String × SamplingParams))
    (data : SplitData) (categorical_features : List String) : Except PyError ℚ :=
  let r := build_search_space trial search_params
  match r.error with
  | some e => Except.error e
  | none =>
    let cfg : HGBConfig := ⟨categorical_features, true, some 42, r.sampled⟩
    Except.ok (modelLoss cfg (effectiveSeed cfg globalSeed) data)

/-- An Optuna study for a minimisation direction: the queue of enqueued
hyperparameter assignments not yet evaluated, and the log of completed trials
as pairs of the evaluated assignment and its recorded loss, in evaluation
order.  The assignment type is abstract. -/
structure Study (α : Type) where
  queue : List α
  trials : List (α × ℚ)

/-- Embedding of `optuna.create_study(...)`: a fresh study with no enqueued
assignment and no completed trial. -/
def create_study (α : Type) : Study α := ⟨[], []⟩

/-- Embedding of `study.enqueue_trial(params)`: the assignment is appended to
the queue of fixed configurations to evaluate first. -/
def Study.enqueue_trial {α : Type} (s : Study α) (a : α) : Study α :=
  ⟨s.queue ++ [a], s.trials⟩

/-- One sequential Optuna trial: if an enqueued assignment is pending it is
evaluated, otherwise the sampler proposes an assignment from the history; the
objective is evaluated on the assignment and the pair is logged. -/
def Study.step {α : Type} (objective : α → ℚ) (sampler : List (α × ℚ) → α)
    (s : Study α) : Study α :=
  match s.queue with
  | a :: q => ⟨q, s.trials ++ [(a, objective a)]⟩
  | [] => ⟨[], s.trials ++ [(sampler s.trials, objective (sampler s.trials))]⟩

/-- Embedding of `study.optimize(objective, n_trials=n, n_jobs=1)`: n trials
run strictly sequentially. -/
def Study.optimize {α : Type} (objective : α → ℚ) (sampler : List (α × ℚ) → α)
    (s : Study α) : Nat → Study α
  | 0 => s
  | n + 1 => Study.optimize objective sampler (Study.step objective sampler s) n

/-- Optuna `study.best_trial` for direction minimize over the completed
trials: the first trial whose recorded value is minimal; none when no trial
completed. -/
def bestTrial {α : Type} : List (α × ℚ) → Option (α × ℚ)
  | [] => none
  | t :: ts => some (ts.foldl (fun b u => if u.2 < b.2 then u else b) t)

/-- Optuna `study.best_params`: the assignment of the best trial. -/
def Study.best_params {α : Type} (s : Study α) : Option α :=
  (bestTrial s.trials).map Prod.fst

/-- The study produced by `run_bayesian_optimization(...)` of
src/train_utils.py before best_params is read: create the study, enqueue each
assignment of default_params_list in order when one is given, then run
study.optimize with n_trials=50.  The objective (the partial application of
optimize_hyperparams_hgb to the fixed data) and the TPE sampler are abstract
parameters. -/
def run_study {α : Type} (objective : α → ℚ) (sampler : List (α × ℚ) → α)
    (default_params_list : Option (List α)) : Study α :=
  let study := create_study α
  let study :=
    match default_params_list with
    | some ds => ds.foldl Study.enqueue_trial study
    | none => study
  Study.optimize objective sampler study 50

/-- Embedding of `run_bayesian_optimization(...)` from src/train_utils.py:
the best_params of the study after the 50 sequential trials. -/
def run_bayesian_optimization {α : Type} (objective : α → ℚ)
    (sampler : List (α × ℚ) → α) (default_params_list : Option (List α)) :
    Option α :=
  (run_study objective sampler default_params_list).best_params

/-- Embedding of `read_rdata(file_path)` from src/download_data.py.  The
external reader pyreadr.read_r returns the ordered mapping of the tables held
in the file; the code returns `next(iter(result.values()))`: the first table,
or a StopIteration failure (here none) when the file holds no table. -/
def read_rdata (tables : List (String × DataFrame)) : Option DataFrame :=
  (tables.map Prod.snd).head?

/-! Theorems for the data splitter. -/

/-- C2: if any name in features_to_drop, or the target column PremTot, is
absent from the columns of the table, retrieve_data_w_features fails with the
column-not-found error naming exactly the missing column labels, and the
caller receives an error rather than any partially formed (X, y) pair. -/
theorem C2_missing_column_error (df : DataFrame) (features_to_drop : List String)
    (split : String) (hsplit : split ∈ df.cols)
    (hmiss : ∃ c ∈ features_to_drop ++ ["PremTot"], c ∉ df.cols) :
    retrieve_data_w_features df features_to_drop split
      = Except.error (PyError.keyError
          ((features_to_drop ++ ["PremTot"]).filter (fun c => decide (c ∉ df.cols)))) := by
  obtain ⟨c, hc, hcn⟩ := hmiss
  have hne : (features_to_drop ++ ["PremTot"]).filter (fun c => decide (c ∉ df.cols)) ≠ [] :=
    List.ne_nil_of_mem (List.mem_filter.mpr ⟨hc, by simpa using hcn⟩)
  unfold retrieve_data_w_features
  rw [if_pos hsplit, if_neg hne]

/-- Witness for C2 at a concrete table missing the target column. -/
theorem C2_missing_column_error_witness :
    retrieve_data_w_features ⟨["train_set"], []⟩ [] "train_set"
      = Except.error (PyError.keyError ["PremTot"]) := by
  have h := C2_missing_column_error ⟨["train_set"], []⟩ [] "train_set"
    (by decide) ⟨"PremTot", by decide, by decide⟩
  simpa using h

/-- C5: for a dataset holding the split indicator column and the target
column, retrieve_data_w_features with no dropped feature returns X and y of
identical row count, equal to the number of rows whose split indicator cell
compares equal to true, with X rows being exactly the original rows restricted
to that subset in original order and y the target cells of those same rows in
the same order. -/
theorem C5_split_selection (df : DataFrame) (split : String)
    (_h4 : split ∈ ["train_set", "test_set", "val_set", "big_train_set"])
    (hsplit : split ∈ df.cols) (htarget : "PremTot" ∈ df.cols) :
    ∃ X y, retrieve_data_w_features df [] split = Except.ok (X, y) ∧
      X.rows = df.rows.filter (fun r => cellEqOne (r split)) ∧
      y = (df.rows.filter (fun r => cellEqOne (r split))).map (fun r => r "PremTot") ∧
      X.rows.length = y.length ∧
      y.length = (df.rows.filter (fun r => cellEqOne (r split))).length := by
  have hmiss : (([] : List String) ++ ["PremTot"]).filter (fun c => decide (c ∉ df.cols)) = [] := by
    simp [htarget]
  refine ⟨⟨df.cols.filter (fun c => decide (c ∉ ([] : List String) ++ ["PremTot"])),
          df.rows.filter (fun r => cellEqOne (r split))⟩,
         (df.rows.filter (fun r => cellEqOne (r split))).map (fun r => r "PremTot"),
         ?_, rfl, rfl, by simp, by simp⟩
  unfold retrieve_data_w_features
  rw [if_pos hsplit, if_pos hmiss]

/-- Witness for C5 at a concrete two-column table. -/
theorem C5_split_selection_witness :
    ∃ X y, retrieve_data_w_features ⟨["PremTot", "train_set"], []⟩ [] "train_set"
        = Except.ok (X, y) ∧
      X.rows = ([] : List (String → Cell)).filter (fun r => cellEqOne (r "train_set")) ∧
      y = (([] : List (String → Cell)).filter (fun r => cellEqOne (r "train_set"))).map
            (fun r => r "PremTot") ∧
      X.rows.length = y.length ∧
      y.length = (([] : List (String → Cell)).filter
        (fun r => cellEqOne (r "train_set"))).length :=
  C5_split_selection ⟨["PremTot", "train_set"], []⟩ "train_set"
    (by decide) (by decide) (by decide)

/-- C6: whenever retrieve_data_w_features returns a result, the target column
PremTot is not a column of X and no column named in features_to_drop is a
column of X. -/
theorem C6_target_and_dropped_absent (df : DataFrame) (features_to_drop : List String)
    (split : String) (X : DataFrame) (y : List Cell)
    (h : retrieve_data_w_features df features_to_drop split = Except.ok (X, y)) :
    "PremTot" ∉ X.cols ∧ ∀ f ∈ features_to_drop, f ∉ X.cols := by
  unfold retrieve_data_w_features at h
  split_ifs at h with h1 h2
  simp only [Except.ok.injEq, Prod.mk.injEq] at h
  obtain ⟨hX, hy⟩ := h
  subst hX
  constructor
  · intro hmem
    have h2m := (List.mem_filter.mp hmem).2
    simp at h2m
  · intro f hf hmem
    have h2m := (List.mem_filter.mp hmem).2
    simp at h2m
    exact h2m.1 hf

/-- Witness for C6 at a concrete table. -/
theorem C6_target_and_dropped_absent_witness :
    "PremTot" ∉ (DataFrame.mk ["train_set"] []).cols ∧
      ∀ f ∈ ["age"], f ∉ (DataFrame.mk ["train_set"] []).cols :=
  C6_target_and_dropped_absent ⟨["age", "PremTot", "train_set"], []⟩ ["age"]
    "train_set" ⟨["train_set"], []⟩ [] (by rfl)

/-- C10: retrieve_data_w_features removes only the columns listed in
features_to_drop plus the target column PremTot: every other column of the
input table stays a column of X, and in particular each of the four split
indicator columns present in the table stays in X unless explicitly listed in
features_to_drop. -/
theorem C10_frame_only_requested_columns_removed (df : DataFrame)
    (features_to_drop : List String) (split : String) (X : DataFrame) (y : List Cell)
    (h : retrieve_data_w_features df features_to_drop split = Except.ok (X, y)) :
    (∀ c ∈ df.cols, c ∉ features_to_drop → c ≠ "PremTot" → c ∈ X.cols) ∧
    (∀ s ∈ ["train_set", "val_set", "test_set", "big_train_set"],
      s ∈ df.cols → s ∉ features_to_drop → s ∈ X.cols) := by
  unfold retrieve_data_w_features at h
  split_ifs at h with h1 h2
  simp only [Except.ok.injEq, Prod.mk.injEq] at h
  obtain ⟨hX, hy⟩ := h
  subst hX
  have key : ∀ c ∈ df.cols, c ∉ features_to_drop → c ≠ "PremTot" →
      c ∈ df.cols.filter (fun c => decide (c ∉ features_to_drop ++ ["PremTot"])) := by
    intro c hc hcf hct
    refine List.mem_filter.mpr ⟨hc, ?_⟩
    simp [List.mem_append, hcf, hct]
  refine ⟨key, ?_⟩
  intro s hs hcols hF
  have hne : s ≠ "PremTot" := by
    simp only [List.mem_cons, List.not_mem_nil, or_false] at hs
    rcases hs with rfl | rfl | rfl | rfl <;> decide
  exact key s hcols hF hne

/-- Witness for C10 at a concrete table. -/
theorem C10_frame_only_requested_columns_removed_witness :
    (∀ c ∈ ["age", "PremTot", "train_set"], c ∉ ["age"] → c ≠ "PremTot" →
      c ∈ (DataFrame.mk ["train_set"] []).cols) ∧
    (∀ s ∈ ["train_set", "val_set", "test_set", "big_train_set"],
      s ∈ ["age", "PremTot", "train_set"] → s ∉ ["age"] →
      s ∈ (DataFrame.mk ["train_set"] []).cols) :=
  C10_frame_only_requested_columns_removed ⟨["age", "PremTot", "train_set"], []⟩
    ["age"] "train_set" ⟨["train_set"], []⟩ [] (by rfl)

/-! Theorems for the search-space builder. -/

/-- A trial with all internal choice sources pinned to their first value. -/
def zeroTrial : Trial := ⟨fun _ => 0, fun _ => 0, fun _ => 0⟩

/-- A search space whose second descriptor carries the unrecognized sampling
kind bogus, after a well-formed float descriptor. -/
def bogusSecondSpace : List (String × SamplingParams) :=
  [("learning_rate", ⟨"float", [], 0, 1⟩), ("bad", ⟨"bogus", [], 0, 1⟩)]

/-- Counterexample to C1 as stated: on a search space containing a descriptor
of the unrecognized kind bogus, build_search_space does fail, but the failure
is an AttributeError naming only the missing method suggest_bogus, and it is
not the case that no hyperparameter of the search space was sampled: the
descriptor preceding the offending one has already been sampled when the
exception is raised. -/
theorem C1_counterexample :
    (build_search_space zeroTrial bogusSecondSpace).error
        = some (PyError.attributeError "suggest_bogus") ∧
      (build_search_space zeroTrial bogusSecondSpace).sampled ≠ [] := by
  constructor
  · rfl
  · intro h
    simp [build_search_space, bogusSecondSpace] at h

/-- C1 (amended): for every search space whose entries split as a recognized
prefix followed by a descriptor of unrecognized kind, build_search_space fails
with an AttributeError naming the missing method suggest_ followed by the kind
(so the kind, not the hyperparameter name, and not a ConfigurationError), and
the failure happens when the offending descriptor is reached: the entries
before it have already been sampled, exactly as they are by a run on the
prefix alone, and neither the offending entry nor any later entry is
sampled. -/
theorem C1_unrecognized_kind_attribute_error (t : Trial)
    (pre post : List (String × SamplingParams)) (name : String) (sp : SamplingParams)
    (hpre : ∀ e ∈ pre, recognizedKind e.2.sampling_type)
    (hbad : ¬ recognizedKind sp.sampling_type) :
    (build_search_space t (pre ++ (name, sp) :: post)).error
        = some (PyError.attributeError ("suggest_" ++ sp.sampling_type)) ∧
      (build_search_space t (pre ++ (name, sp) :: post)).sampled
        = (build_search_space t pre).sampled := by
  induction pre with
  | nil =>
    have h1 : sp.sampling_type ≠ "categorical" := fun h => hbad (Or.inl h)
    have h2 : sp.sampling_type ≠ "int" := fun h => hbad (Or.inr (Or.inl h))
    have h3 : sp.sampling_type ≠ "float" := fun h => hbad (Or.inr (Or.inr h))
    simp [build_search_space, h1, h2, h3]
  | cons e pre ih =>
    obtain ⟨n0, sp0⟩ := e
    have hrec : recognizedKind sp0.sampling_type := hpre ⟨n0, sp0⟩ (List.mem_cons_self _ _)
    have hrest : ∀ e ∈ pre, recognizedKind e.2.sampling_type := fun e he =>
      hpre e (List.mem_cons_of_mem _ he)
    obtain ⟨herr, hsmp⟩ := ih hrest
    rcases hrec with hk | hk | hk <;>
      simp [build_search_space, hk, herr, hsmp]

/-- Witness for the amended C1 at a concrete search space. -/
theorem C1_unrecognized_kind_attribute_error_witness :
    (build_search_space zeroTrial
        ([("learning_rate", ⟨"float", [], 0, 1⟩)] ++ ("bad", ⟨"bogus", [], 0, 1⟩) :: [])).error
        = some (PyError.attributeError ("suggest_" ++ "bogus")) ∧
      (build_search_space zeroTrial
        ([("learning_rate", ⟨"float", [], 0, 1⟩)] ++ ("bad", ⟨"bogus", [], 0, 1⟩) :: [])).sampled
        = (build_search_space zeroTrial [("learning_rate", ⟨"float", [], 0, 1⟩)]).sampled :=
  C1_unrecognized_kind_attribute_error zeroTrial
    [("learning_rate", ⟨"float", [], 0, 1⟩)] [] "bad" ⟨"bogus", [], 0, 1⟩
    (by decide) (by decide)

/-- Well-formedness of one search-space entry: a categorical descriptor has a
nonempty choices list, a non-categorical descriptor has ordered bounds. -/
def wfEntry (e : String × SamplingParams) : Prop :=
  (e.2.sampling_type = "categorical" → e.2.choices ≠ []) ∧
  (e.2.sampling_type ≠ "categorical" → e.2.min ≤ e.2.max)

instance (e : String × SamplingParams) : Decidable (wfEntry e) := by
  unfold wfEntry; infer_instance

/-- A sampled value is consistent with its descriptor: for a categorical
descriptor it is one of the enumerated choices, for a numeric descriptor it is
a numeric value inside the closed interval from min to max. -/
def matchesDescriptor (sp : SamplingParams) (v : Cell) : Prop :=
  if sp.sampling_type = "categorical" then v ∈ sp.choices
  else ∃ q : ℚ, v = Cell.rat q ∧ sp.min ≤ q ∧ q ≤ sp.max

/-- The categorical sampler of a trial returns one of the given choices. -/
theorem suggest_categorical_mem (t : Trial) (name : String) (choices : List Cell)
    (h : choices ≠ []) : t.suggest_categorical name choices ∈ choices := by
  have hlen : 0 < choices.length := List.length_pos.mpr h
  have hidx : t.catChoice name % choices.length < choices.length :=
    Nat.mod_lt _ hlen
  unfold Trial.suggest_categorical
  rw [List.getD_eq_getElem choices (Cell.str "") hidx]
  exact List.getElem_mem hidx

/-- C7: every value placed in the sampled assignment by build_search_space
respects the descriptor of the entry it was sampled for: a categorical entry
contributes one of its enumerated choices, a numeric entry contributes a value
in the closed interval given by its bounds. -/
theorem C7_sampled_values_respect_descriptors (t : Trial)
    (space : List (String × SamplingParams))
    (hwf : ∀ e ∈ space, wfEntry e) :
    ∀ nv ∈ (build_search_space t space).sampled,
      ∃ sp, (nv.1, sp) ∈ space ∧ matchesDescriptor sp nv.2 := by
  induction space with
  | nil => intro nv hnv; simp [build_search_space] at hnv
  | cons e rest ih =>
    obtain ⟨name, sp⟩ := e
    have hwfe := hwf ⟨name, sp⟩ (List.mem_cons_self _ _)
    have hwfr : ∀ e ∈ rest, wfEntry e := fun e he => hwf e (List.mem_cons_of_mem _ he)
    intro nv hnv
    by_cases hc : sp.sampling_type = "categorical"
    · rw [build_search_space, if_pos hc] at hnv
      rcases List.mem_cons.mp hnv with heq | hmem
      · subst heq
        refine ⟨sp, List.mem_cons_self _ _, ?_⟩
        unfold matchesDescriptor
        rw [if_pos hc]
        exact suggest_categorical_mem t name sp.choices (hwfe.1 hc)
      · obtain ⟨sp2, hsp2, hm⟩ := ih hwfr nv hmem
        exact ⟨sp2, List.mem_cons_of_mem _ hsp2, hm⟩
    · have hle : sp.min ≤ sp.max := hwfe.2 hc
      by_cases hi : sp.sampling_type = "int"
      · rw [build_search_space, if_neg hc, if_pos hi] at hnv
        rcases List.mem_cons.mp hnv with heq | hmem
        · subst heq
          refine ⟨sp, List.mem_cons_self _ _, ?_⟩
          unfold matchesDescriptor
          rw [if_neg hc]
          exact ⟨t.suggest_int name sp.min sp.max, rfl,
            le_max_left _ _, max_le hle (min_le_left _ _)⟩
        · obtain ⟨sp2, hsp2, hm⟩ := ih hwfr nv hmem
          exact ⟨sp2, List.mem_cons_of_mem _ hsp2, hm⟩
      · by_cases hf : sp.sampling_type = "float"
        · rw [build_search_space, if_neg hc, if_neg hi, if_pos hf] at hnv
          rcases List.mem_cons.mp hnv with heq | hmem
          · subst heq
            refine ⟨sp, List.mem_cons_self _ _, ?_⟩
            unfold matchesDescriptor
            rw [if_neg hc]
            exact ⟨t.suggest_float name sp.min sp.max, rfl,
              le_max_left _ _, max_le hle (min_le_left _ _)⟩
          · obtain ⟨sp2, hsp2, hm⟩ := ih hwfr nv hmem
            exact ⟨sp2, List.mem_cons_of_mem _ hsp2, hm⟩
        · rw [build_search_space, if_neg hc, if_neg hi, if_neg hf] at hnv
          simp at hnv

/-- Witness for C7 at a concrete search space with one categorical and one
numeric descriptor, instantiated at the value the trial samples for the
categorical entry. -/
theorem C7_sampled_values_respect_descriptors_witness :
    ∃ sp, ("loss", sp) ∈
        [("loss", ⟨"categorical", [Cell.str "squared_error", Cell.str "absolute_error"], 0, 0⟩),
         ("max_iter", (⟨"int", [], 1, 10⟩ : SamplingParams))] ∧
      matchesDescriptor sp (Cell.str "squared_error") :=
  C7_sampled_values_respect_descriptors zeroTrial
    [("loss", ⟨"categorical", [Cell.str "squared_error", Cell.str "absolute_error"], 0, 0⟩),
     ("max_iter", ⟨"int", [], 1, 10⟩)]
    (by decide) ("loss", Cell.str "squared_error") (by decide)

/-! Theorems for the optimization driver. -/

/-- Enqueueing a list of assignments appends them, in order, to the queue and
leaves the trial log unchanged. -/
theorem foldl_enqueue_trial {α : Type} (ds : List α) (s : Study α) :
    ds.foldl Study.enqueue_trial s = ⟨s.queue ++ ds, s.trials⟩ := by
  induction ds generalizing s with
  | nil => simp
  | cons d ds ih =>
    simp only [List.foldl_cons, ih]
    simp [Study.enqueue_trial, List.append_assoc]

/-- One sequential trial extends the trial log by exactly one entry. -/
theorem step_trials_length {α : Type} (objective : α → ℚ)
    (sampler : List (α × ℚ) → α) (s : Study α) :
    (Study.step objective sampler s).trials.length = s.trials.length + 1 := by
  unfold Study.step
  cases s.queue <;> simp

/-- Running n sequential trials extends the trial log by exactly n entries. -/
theorem optimize_trials_length {α : Type} (objective : α → ℚ)
    (sampler : List (α × ℚ) → α) (n : Nat) (s : Study α) :
    (Study.optimize objective sampler s n).trials.length = s.trials.length + n := by
  induction n generalizing s with
  | zero => rfl
  | succ n ih =>
    rw [Study.optimize, ih, step_trials_length]
    omega

/-- Running trials only ever appends to the trial log. -/
theorem optimize_trials_extend {α : Type} (objective : α → ℚ)
    (sampler : List (α × ℚ) → α) (n : Nat) (s : Study α) :
    ∃ rest, (Study.optimize objective sampler s n).trials = s.trials ++ rest := by
  induction n generalizing s with
  | zero => exact ⟨[], by simp [Study.optimize]⟩
  | succ n ih =>
    obtain ⟨rest, hrest⟩ := ih (Study.step objective sampler s)
    rw [Study.optimize, hrest]
    unfold Study.step
    cases s.queue <;> simp

/-- When the trial budget covers the queue, the trial log of the finished run
starts with the queued assignments, each paired with its objective value, in
queue order; sampler proposals only fill the remainder. -/
theorem optimize_trials_queue_front {α : Type} (objective : α → ℚ)
    (sampler : List (α × ℚ) → α) (n : Nat) (s : Study α)
    (h : s.queue.length ≤ n) :
    ∃ rest, (Study.optimize objective sampler s n).trials
      = s.trials ++ s.queue.map (fun a => (a, objective a)) ++ rest := by
  induction n generalizing s with
  | zero =>
    have hq : s.queue = [] := List.eq_nil_of_length_eq_zero (Nat.le_zero.mp h)
    exact ⟨[], by simp [Study.optimize, hq]⟩
  | succ n ih =>
    rw [Study.optimize]
    match hq : s.queue with
    | [] =>
      obtain ⟨rest, hrest⟩ :=
        optimize_trials_extend objective sampler n (Study.step objective sampler s)
      refine ⟨(Study.step objective sampler s).trials.drop s.trials.length ++ rest, ?_⟩
      rw [hrest]
      unfold Study.step
      rw [hq]
      simp [hq]
    | a :: q =>
      have hs : Study.step objective sampler s = ⟨q, s.trials ++ [(a, objective a)]⟩ := by
        unfold Study.step
        rw [hq]
      have hlen : q.length ≤ n := by
        have := h
        rw [hq] at this
        simpa using Nat.lt_succ_iff.mp (Nat.lt_of_lt_of_le (by simp) this)
      obtain ⟨rest, hrest⟩ := ih (Study.step objective sampler s) (by rw [hs]; exact hlen)
      refine ⟨rest, ?_⟩
      rw [hrest, hs]
      simp [List.append_assoc]

/-- The best trial is a member of the trial log and its recorded loss is less
than or equal to the loss of every trial in the log. -/
theorem bestTrial_spec {α : Type} (ts : List (α × ℚ)) (b : α × ℚ)
    (h : bestTrial ts = some b) : b ∈ ts ∧ ∀ p ∈ ts, b.2 ≤ p.2 := by
  match ts with
  | [] => simp [bestTrial] at h
  | t :: ts =>
    have haux : ∀ (rest : List (α × ℚ)) (acc : α × ℚ),
        (rest.foldl (fun b u => if u.2 < b.2 then u else b) acc = acc ∨
          rest.foldl (fun b u => if u.2 < b.2 then u else b) acc ∈ rest) ∧
        (rest.foldl (fun b u => if u.2 < b.2 then u else b) acc).2 ≤ acc.2 ∧
        ∀ p ∈ rest, (rest.foldl (fun b u => if u.2 < b.2 then u else b) acc).2 ≤ p.2 := by
      intro rest
      induction rest with
      | nil => intro acc; simp
      | cons u rest ih =>
        intro acc
        simp only [List.foldl_cons]
        by_cases hu : u.2 < acc.2
        · rw [if_pos hu]
          obtain ⟨hm, hle, hall⟩ := ih u
          refine ⟨?_, le_trans hle (le_of_lt hu), ?_⟩
          · rcases hm with hm | hm
            · exact Or.inr (by rw [hm]; exact List.mem_cons_self _ _)
            · exact Or.inr (List.mem_cons_of_mem _ hm)
          · intro p hp
            rcases List.mem_cons.mp hp with rfl | hp
            · exact hle
            · exact hall p hp
        · rw [if_neg hu]
          obtain ⟨hm, hle, hall⟩ := ih acc
          refine ⟨?_, hle, ?_⟩
          · rcases hm with hm | hm
            · exact Or.inl hm
            · exact Or.inr (List.mem_cons_of_mem _ hm)
          · intro p hp
            rcases List.mem_cons.mp hp with rfl | hp
            · exact le_trans hle (le_of_not_lt hu)
            · exact hall p hp
    simp only [bestTrial, Option.some.injEq] at h
    obtain ⟨hm, hle, hall⟩ := haux ts t
    subst h
    constructor
    · rcases hm with hm | hm
      · rw [hm]; exact List.mem_cons_self _ _
      · exact List.mem_cons_of_mem _ hm
    · intro p hp
      rcases List.mem_cons.mp hp with rfl | hp
      · exact hle
      · exact hall p hp

/-- C3: every completed run of run_bayesian_optimization returns the
assignment whose recorded loss is minimal over all evaluated trials of the
run, enqueued defaults and sampler proposals alike: the returned assignment is
one of the logged trials and its recorded loss is less than or equal to the
loss of every logged trial. -/
theorem C3_returns_lowest_loss_assignment {α : Type} (objective : α → ℚ)
    (sampler : List (α × ℚ) → α) (default_params_list : Option (List α)) :
    ∃ best loss,
      run_bayesian_optimization objective sampler default_params_list = some best ∧
      (best, loss) ∈ (run_study objective sampler default_params_list).trials ∧
      ∀ p ∈ (run_study objective sampler default_params_list).trials, loss ≤ p.2 := by
  have hlen : (run_study objective sampler default_params_list).trials.length = 50 := by
    cases default_params_list with
    | none =>
      show (Study.optimize objective sampler (create_study α) 50).trials.length = 50
      rw [optimize_trials_length]
      rfl
    | some ds =>
      show (Study.optimize objective sampler
        (ds.foldl Study.enqueue_trial (create_study α)) 50).trials.length = 50
      rw [foldl_enqueue_trial, optimize_trials_length]
      rfl
  have hne : (run_study objective sampler default_params_list).trials ≠ [] := by
    intro h
    rw [h] at hlen
    simp at hlen
  obtain ⟨b, hb⟩ : ∃ b, bestTrial (run_study objective sampler default_params_list).trials
      = some b := by
    match hts : (run_study objective sampler default_params_list).trials with
    | [] => exact absurd hts hne
    | t :: ts => exact ⟨_, rfl⟩
  obtain ⟨hmem, hmin⟩ := bestTrial_spec _ b hb
  refine ⟨b.1, b.2, ?_, hmem, hmin⟩
  unfold run_bayesian_optimization Study.best_params
  rw [hb]
  rfl

/-- C4: every assignment of default_params_list is enqueued and evaluated as
an early trial before any sampler proposal: within the 50 trial budget, the
trial log of the run begins with exactly the default assignments in their
given order, each paired with its objective value, so the assignment at index
i of the list is evaluated at trial index i; in particular a single supplied
default assignment is evaluated at trial index 0, at or before index 1. -/
theorem C4_defaults_evaluated_first {α : Type} (objective : α → ℚ)
    (sampler : List (α × ℚ) → α) (ds : List α) (h : ds.length ≤ 50) :
    ∃ rest, (run_study objective sampler (some ds)).trials
      = ds.map (fun a => (a, objective a)) ++ rest := by
  show ∃ rest, (Study.optimize objective sampler
    (ds.foldl Study.enqueue_trial (create_study α)) 50).trials
      = ds.map (fun a => (a, objective a)) ++ rest
  rw [foldl_enqueue_trial]
  obtain ⟨rest, hrest⟩ := optimize_trials_queue_front objective sampler 50
    ⟨(create_study α).queue ++ ds, (create_study α).trials⟩
    (by simp [create_study]; exact h)
  exact ⟨rest, by simpa [create_study] using hrest⟩

/-- Witness for C4: one default assignment, evaluated at trial index 0. -/
theorem C4_defaults_evaluated_first_witness :
    ∃ rest, (run_study (fun n => (n : ℚ)) (fun _ => 0) (some [7])).trials
      = ([7] : List Nat).map (fun a => (a, (a : ℚ))) ++ rest :=
  C4_defaults_evaluated_first (fun n => (n : ℚ)) (fun _ => 0) [7] (by decide)

/-- C8: two evaluations of the objective optimize_hyperparams_hgb on the same
trial, search space and data yield the same loss whatever global random state
each evaluation happens under, because the model is constructed with the
constant seed 42 as random_state, which overrides the ambient randomness. -/
theorem C8_objective_deterministic (modelLoss : HGBConfig → Nat → SplitData → ℚ)
    (g1 g2 : Nat) (trial : Trial) (search_params : List (String × SamplingParams))
    (data : SplitData) (categorical_features : List String) :
    optimize_hyperparams_hgb modelLoss g1 trial search_params data categorical_features
      = optimize_hyperparams_hgb modelLoss g2 trial search_params data categorical_features := by
  rfl

/-- C9: read_rdata returns exactly the first table the file holds and silently
discards every other table: whatever further tables follow the first, the
result is the same single table. -/
theorem C9_first_table_returned (entry : String × DataFrame)
    (rest : List (String × DataFrame)) :
    read_rdata (entry :: rest) = some entry.2 ∧
    read_rdata (entry :: rest) = read_rdata [entry] := by
  constructor <;> rfl

end Workshop
